import Mathlib

/-!
Verification of the drawing core of the pongpi LED-strip renderer
(`src/pong/draw/player.go`, canonical third evolutionary version).

Modelling conventions:
* Go `float64` values (positions, velocities, offsets, dt) are modelled over `ℚ`.
* Go `uint8` channel values are modelled as `ℕ`, with the Go conversion
  `uint8(x)` of an unsigned integer expression modelled as `x % 256`.
* The Go conversion `int(x)` / `uint8(x)` of a float truncates toward zero;
  it is modelled by `goInt`.
* Go unsigned subtraction `255 - fa` (with `fa` coming from a `uint8`, hence
  `fa ≤ 255`) coincides with truncated subtraction on `ℕ`.
* `Animate` methods in Go mutate the receiver and return the constant
  `keepAlive = true`; they are modelled as pure state transformers, the
  constant result omitted.
-/

/-- Go `int(x)` on a float: truncation toward zero. -/
def goInt (q : ℚ) : ℤ :=
  if 0 ≤ q then ⌊q⌋ else -⌊-q⌋

/-- Model of `type ZIndex int`. -/
abbrev ZIndex := Int

/-- Model of `type RGBA color.RGBA`: four 8-bit channels, modelled as `ℕ` values
(well-formed colors have every channel `≤ 255`). -/
structure RGBA where
  R : ℕ
  G : ℕ
  B : ℕ
  A : ℕ
deriving DecidableEq, Repr

/-- Model of `func blend(foreground, background RGBA) RGBA` — fixed-point "over"
compositing: `opacity := fa`, `backgroundOpacity := (ba * (255 - fa)) >> 8`,
each channel `uint8((fc*opacity)>>8 + (bc*backgroundOpacity)>>8)`, alpha
`uint8(opacity)`. -/
def blend (foreground background : RGBA) : RGBA :=
  let opacity := foreground.A
  let backgroundOpacity := (background.A * (255 - foreground.A)) >>> 8
  { R := ((foreground.R * opacity) >>> 8 + (background.R * backgroundOpacity) >>> 8) % 256
    G := ((foreground.G * opacity) >>> 8 + (background.G * backgroundOpacity) >>> 8) % 256
    B := ((foreground.B * opacity) >>> 8 + (background.B * backgroundOpacity) >>> 8) % 256
    A := opacity % 256 }

/-- Model of `type Line struct` (canonical pointer version, lines 365–405). -/
structure Line where
  leftEdge : ℚ
  rightEdge : ℚ
  color : RGBA
  zindex : ZIndex
deriving DecidableEq, Repr

/-- Model of `func NewLine`. -/
def NewLine (leftEdge rightEdge : ℚ) (color : RGBA) (zindex : ZIndex) : Line :=
  { leftEdge := leftEdge, rightEdge := rightEdge, color := color, zindex := zindex }

/-- Model of `func (line *Line) ColorAt(position float64, baseColor RGBA) RGBA`
(canonical version, lines 388–395): blend the line color over the base when
`leftEdge <= position && position <= rightEdge`, else the base unchanged. -/
def Line.ColorAt (line : Line) (position : ℚ) (baseColor : RGBA) : RGBA :=
  if line.leftEdge ≤ position ∧ position ≤ line.rightEdge then
    blend line.color baseColor
  else
    baseColor

/-- The superseded middle evolutionary variant `func (line Line) ColorAt`
(lines 152–159): strict bounds and the raw color without blending. -/
structure LineMid where
  leftEdge : ℚ
  rightEdge : ℚ
  color : RGBA
  zindex : ZIndex
deriving DecidableEq, Repr

/-- Model of `func (line Line) ColorAt` of the middle variant. -/
def LineMid.ColorAt (line : LineMid) (position : ℚ) (baseColor : RGBA) : RGBA :=
  if line.leftEdge < position ∧ position < line.rightEdge then
    line.color
  else
    baseColor

/-- Model of `type Player struct` with its `line` and `visible` fields. -/
structure Player where
  line : Line
  visible : Bool
deriving DecidableEq, Repr

/-- Model of `func NewPlayer(isLeft bool, field *GameField) *Player`, with `width`
standing for `field.Width()`. Go `/` on `int` truncates toward zero, as does
`Int.div`; the `visible` field is left at its Go zero value `false`. -/
def NewPlayer (isLeft : Bool) (width : ℤ) : Player :=
  if isLeft then
    { line := NewLine 0 ((width / 2 : ℤ) : ℚ) ⟨255, 0, 0, 200⟩ 10, visible := false }
  else
    { line := NewLine (((width / 2 : ℤ) : ℚ) + 1) (width : ℚ) ⟨0, 255, 0, 200⟩ 10,
      visible := false }

/-- Model of `func (this *Player) UpdateVisible(visible bool)`. -/
def Player.UpdateVisible (player : Player) (visible : Bool) : Player :=
  { player with visible := visible }

/-- Model of `func (this *Player) ColorAt(position float64, baseColor RGBA) RGBA`. -/
def Player.ColorAt (player : Player) (position : ℚ) (baseColor : RGBA) : RGBA :=
  if !player.visible then
    baseColor
  else
    player.line.ColorAt position baseColor

/-- Model of `type Ball struct`. -/
structure Ball where
  position : ℚ
  velocity : ℚ
  maxPosition : ℚ
  zindex : ZIndex
deriving DecidableEq, Repr

/-- Model of `func NewBall(field *GameField) *Ball`, with `width` for `field.Width()`. -/
def NewBall (width : ℤ) : Ball :=
  { position := 0
    velocity := (width : ℚ) / 3
    maxPosition := ((width - 1 : ℤ) : ℚ)
    zindex := 100 }

/-- The `uint8((1.0 - distance) * 255.0)` conversion inside `Ball.ColorAt`. -/
def dotAlpha (distance : ℚ) : ℕ :=
  (goInt ((1 - distance) * 255)).toNat

/-- Model of `func (this *Ball) ColorAt(position float64, baseColor RGBA) RGBA`:
a white dot of linearly falling alpha within distance 1 of the ball. -/
def Ball.ColorAt (ball : Ball) (position : ℚ) (baseColor : RGBA) : RGBA :=
  let distance := |position - ball.position|
  if distance < 1 then
    blend ⟨255, 255, 255, dotAlpha distance⟩ baseColor
  else
    baseColor

/-- Model of `func (this *Ball) Animate(dt float64) bool` (lines 509–522):
advance by `velocity * dt`, then reflect once at `maxPosition` (if the new
position exceeds it) or once at `0` (else-if the new position is negative),
negating the velocity on either reflection. -/
def Ball.Animate (ball : Ball) (dt : ℚ) : Ball :=
  let position := ball.position + ball.velocity * dt
  if position > ball.maxPosition then
    { ball with
      position := ball.maxPosition - (position - ball.maxPosition)
      velocity := -ball.velocity }
  else if position < 0 then
    { ball with position := -position, velocity := -ball.velocity }
  else
    { ball with position := position }

/-- Iterated `Ball.Animate` over a sequence of dt steps. -/
def Ball.AnimateSeq (ball : Ball) (dts : List ℚ) : Ball :=
  dts.foldl Ball.Animate ball

/-- Model of `type Sinusoid struct` (canonical three-offset version, lines 524–536).
The `sineLookup` table always has length 256 (`make([]uint8, 256)` in
`buildLookup`); its transcendental entries are irrelevant to indexing, so
only the index arithmetic is modelled. -/
structure Sinusoid where
  scale : ℚ
  offset0 : ℚ
  offset1 : ℚ
  offset2 : ℚ
  zindex : ZIndex
deriving DecidableEq, Repr

/-- Length of the `sineLookup` table built by `buildLookup`. -/
def sineLookupSize : ℕ := 256

/-- Model of `func NewSinusoid(field *GameField, zindex ZIndex) *Sinusoid`, with
`scale` standing for `float64(field.Width())`; all offsets start at 0. -/
def NewSinusoid (scale : ℚ) (zindex : ZIndex) : Sinusoid :=
  { scale := scale, offset0 := 0, offset1 := 0, offset2 := 0, zindex := zindex }

/-- The index computation of `func (this *Sinusoid) lookup(fieldPercentage
float64) uint8` (lines 565–571): one conditional `-= 1` when the argument
exceeds 1, then `int(fieldPercentage * 256)`.  The Go code then reads
`sineLookup[index]`, which panics unless `0 ≤ index < 256`. -/
def Sinusoid.lookupIndex (fieldPercentage : ℚ) : ℤ :=
  let fp := if fieldPercentage > 1 then fieldPercentage - 1 else fieldPercentage
  goInt (fp * 256)

/-- The three table indices read by `func (this *Sinusoid) ColorAt`
(lines 574–585): `fieldPercentage := position / scale`, then one lookup at
`fieldPercentage + offsets[i]` per color channel. -/
def Sinusoid.ColorAtIndices (s : Sinusoid) (position : ℚ) : ℤ × ℤ × ℤ :=
  let fieldPercentage := position / s.scale
  (Sinusoid.lookupIndex (fieldPercentage + s.offset0),
   Sinusoid.lookupIndex (fieldPercentage + s.offset1),
   Sinusoid.lookupIndex (fieldPercentage + s.offset2))

/-- Model of `func (this *Sinusoid) Animate(dt float64) bool` (lines 593–611):
each offset advances at its own rate (0.27, 0.41, 0.59 per second) and is
wrapped by a single conditional subtraction of 1 when it exceeds 1. -/
def Sinusoid.Animate (s : Sinusoid) (dt : ℚ) : Sinusoid :=
  let o0 := s.offset0 + dt * (27 / 100)
  let o0 := if o0 > 1 then o0 - 1 else o0
  let o1 := s.offset1 + dt * (41 / 100)
  let o1 := if o1 > 1 then o1 - 1 else o1
  let o2 := s.offset2 + dt * (59 / 100)
  let o2 := if o2 > 1 then o2 - 1 else o2
  { s with offset0 := o0, offset1 := o1, offset2 := o2 }

/-! ## Helper lemmas -/

/-- Right-shifting a product by 8 bits cannot exceed the first factor when the
second factor is at most 256. -/
theorem shiftRight8_mul_le (x y : ℕ) (hy : y ≤ 256) : (x * y) >>> 8 ≤ x := by
  rw [Nat.shiftRight_eq_div_pow]
  calc x * y / 2 ^ 8 ≤ x * 256 / 2 ^ 8 :=
        Nat.div_le_div_right (Nat.mul_le_mul_left x hy)
    _ = x := by omega

/-- Truncation toward zero is monotone. -/
theorem goInt_mono {q q' : ℚ} (h : q ≤ q') : goInt q ≤ goInt q' := by
  unfold goInt
  split_ifs with h1 h2 h2
  · exact Int.floor_mono h
  · exact absurd (le_trans h1 h) h2
  · have ha : -⌊-q⌋ ≤ 0 := by
      have : (0 : ℚ) ≤ -q := by linarith [not_le.mp h1]
      have := Int.floor_nonneg.mpr this
      omega
    have hb : (0 : ℤ) ≤ ⌊q'⌋ := Int.floor_nonneg.mpr h2
    omega
  · have : ⌊-q'⌋ ≤ ⌊-q⌋ := Int.floor_mono (by linarith)
    omega

/-! ## Claim theorems -/

/-- C2 counterexample: `blend` with foreground alpha 0 does **not** return the
background unchanged: on background `(255,255,255,255)` it returns
`(253,253,253,0)`. -/
theorem blend_zero_alpha_not_identity :
    blend ⟨0, 0, 0, 0⟩ ⟨255, 255, 255, 255⟩ ≠ (⟨255, 255, 255, 255⟩ : RGBA) := by
  decide

/-- C2 (amended): with foreground alpha 0, `blend` returns alpha 0 and each
RGB channel `(bc * ((ba*255) >> 8)) >> 8`, which is at most (but in general
not equal to) the corresponding background channel. -/
theorem blend_zero_alpha_approx (c base : RGBA) (hc : c.A = 0)
    (hr : base.R ≤ 255) (hg : base.G ≤ 255) (hb : base.B ≤ 255) (ha : base.A ≤ 255) :
    (blend c base).A = 0 ∧
    (blend c base).R = (base.R * ((base.A * 255) >>> 8)) >>> 8 ∧
    (blend c base).G = (base.G * ((base.A * 255) >>> 8)) >>> 8 ∧
    (blend c base).B = (base.B * ((base.A * 255) >>> 8)) >>> 8 ∧
    (blend c base).R ≤ base.R ∧ (blend c base).G ≤ base.G ∧ (blend c base).B ≤ base.B := by
  have hop : (base.A * 255) >>> 8 ≤ 256 :=
    le_trans (shiftRight8_mul_le base.A 255 (by omega)) (by omega)
  have hR : (base.R * ((base.A * 255) >>> 8)) >>> 8 ≤ base.R :=
    shiftRight8_mul_le base.R _ hop
  have hG : (base.G * ((base.A * 255) >>> 8)) >>> 8 ≤ base.G :=
    shiftRight8_mul_le base.G _ hop
  have hB : (base.B * ((base.A * 255) >>> 8)) >>> 8 ≤ base.B :=
    shiftRight8_mul_le base.B _ hop
  refine ⟨?_, ?_, ?_, ?_, ?_, ?_, ?_⟩ <;>
    simp only [blend, hc, Nat.sub_zero, Nat.mul_zero, Nat.zero_shiftRight,
      Nat.zero_add, Nat.zero_mod] <;> omega

/-- Arithmetic of the `(x * 255) >> 8` channel approximation for a byte `x`. -/
theorem mul255_shiftRight8 (x : ℕ) (hx : x ≤ 255) :
    ((x * 255) >>> 8) % 256 = (x * 255) >>> 8 ∧ (1 ≤ x → (x * 255) >>> 8 = x - 1) := by
  rw [Nat.shiftRight_eq_div_pow]
  have h1 : x * 255 / 2 ^ 8 < 256 := by omega
  exact ⟨Nat.mod_eq_of_lt h1, fun h => by omega⟩

/-- C3 counterexample: `blend` with foreground alpha 255 does **not** return
the foreground's RGB channels: foreground `(255,255,255,255)` yields red
channel 254, not 255. -/
theorem blend_full_alpha_not_exact :
    (blend ⟨255, 255, 255, 255⟩ ⟨0, 0, 0, 0⟩).R ≠ (⟨255, 255, 255, 255⟩ : RGBA).R := by
  decide

/-- C3 (amended): with foreground alpha 255, `blend` returns alpha 255 and
each RGB channel `(fc * 255) >> 8` (independent of the background), which is
`fc - 1` for a nonzero channel `fc` and `0` for `fc = 0`. -/
theorem blend_full_alpha_saturation (c base : RGBA) (hc : c.A = 255)
    (hr : c.R ≤ 255) (hg : c.G ≤ 255) (hb : c.B ≤ 255) :
    (blend c base).A = 255 ∧
    (blend c base).R = (c.R * 255) >>> 8 ∧
    (blend c base).G = (c.G * 255) >>> 8 ∧
    (blend c base).B = (c.B * 255) >>> 8 ∧
    (1 ≤ c.R → (blend c base).R = c.R - 1) ∧
    (1 ≤ c.G → (blend c base).G = c.G - 1) ∧
    (1 ≤ c.B → (blend c base).B = c.B - 1) := by
  refine ⟨?_, ?_, ?_, ?_, fun h1 => ?_, fun h1 => ?_, fun h1 => ?_⟩ <;>
    simp only [blend, hc, Nat.sub_self, Nat.mul_zero,
      Nat.zero_shiftRight, Nat.add_zero]
  · exact (mul255_shiftRight8 c.R hr).1
  · exact (mul255_shiftRight8 c.G hg).1
  · exact (mul255_shiftRight8 c.B hb).1
  · rw [(mul255_shiftRight8 c.R hr).1]
    exact (mul255_shiftRight8 c.R hr).2 h1
  · rw [(mul255_shiftRight8 c.G hg).1]
    exact (mul255_shiftRight8 c.G hg).2 h1
  · rw [(mul255_shiftRight8 c.B hb).1]
    exact (mul255_shiftRight8 c.B hb).2 h1

/-- C9: the alpha of `blend`'s output is exactly the foreground's alpha, for
every background; in particular it does not depend on the background at all. -/
theorem blend_alpha_from_foreground (f bg bg' : RGBA) (hf : f.A ≤ 255) :
    (blend f bg).A = f.A ∧ (blend f bg).A = (blend f bg').A := by
  constructor
  · simp only [blend]
    omega
  · rfl

/-- C9 witness. -/
theorem blend_alpha_from_foreground_witness :
    (blend ⟨10, 20, 30, 40⟩ ⟨50, 60, 70, 80⟩).A = 40 ∧
    (blend ⟨10, 20, 30, 40⟩ ⟨50, 60, 70, 80⟩).A = (blend ⟨10, 20, 30, 40⟩ ⟨1, 2, 3, 255⟩).A :=
  blend_alpha_from_foreground ⟨10, 20, 30, 40⟩ ⟨50, 60, 70, 80⟩ ⟨1, 2, 3, 255⟩ (by decide)

/-- C2 witness for the amended statement. -/
theorem blend_zero_alpha_approx_witness :
    (blend ⟨0, 0, 0, 0⟩ ⟨255, 255, 255, 255⟩).A = 0 ∧
    (blend ⟨0, 0, 0, 0⟩ ⟨255, 255, 255, 255⟩).R = (255 * ((255 * 255) >>> 8)) >>> 8 ∧
    (blend ⟨0, 0, 0, 0⟩ ⟨255, 255, 255, 255⟩).G = (255 * ((255 * 255) >>> 8)) >>> 8 ∧
    (blend ⟨0, 0, 0, 0⟩ ⟨255, 255, 255, 255⟩).B = (255 * ((255 * 255) >>> 8)) >>> 8 ∧
    (blend ⟨0, 0, 0, 0⟩ ⟨255, 255, 255, 255⟩).R ≤ 255 ∧
    (blend ⟨0, 0, 0, 0⟩ ⟨255, 255, 255, 255⟩).G ≤ 255 ∧
    (blend ⟨0, 0, 0, 0⟩ ⟨255, 255, 255, 255⟩).B ≤ 255 :=
  blend_zero_alpha_approx ⟨0, 0, 0, 0⟩ ⟨255, 255, 255, 255⟩ rfl
    (by decide) (by decide) (by decide) (by decide)

/-- C3 witness for the amended statement. -/
theorem blend_full_alpha_saturation_witness :
    (blend ⟨255, 128, 0, 255⟩ ⟨7, 8, 9, 10⟩).A = 255 ∧
    (blend ⟨255, 128, 0, 255⟩ ⟨7, 8, 9, 10⟩).R = (255 * 255) >>> 8 ∧
    (blend ⟨255, 128, 0, 255⟩ ⟨7, 8, 9, 10⟩).G = (128 * 255) >>> 8 ∧
    (blend ⟨255, 128, 0, 255⟩ ⟨7, 8, 9, 10⟩).B = (0 * 255) >>> 8 ∧
    (1 ≤ 255 → (blend ⟨255, 128, 0, 255⟩ ⟨7, 8, 9, 10⟩).R = 255 - 1) ∧
    (1 ≤ 128 → (blend ⟨255, 128, 0, 255⟩ ⟨7, 8, 9, 10⟩).G = 128 - 1) ∧
    (1 ≤ 0 → (blend ⟨255, 128, 0, 255⟩ ⟨7, 8, 9, 10⟩).B = 0 - 1) :=
  blend_full_alpha_saturation ⟨255, 128, 0, 255⟩ ⟨7, 8, 9, 10⟩ rfl
    (by decide) (by decide) (by decide)

/-- C6: `Line.ColorAt` returns the line color blended over the base exactly
when the position lies within the inclusive bounds, and the base unchanged
otherwise. -/
theorem line_containment (l : Line) (p : ℚ) (base : RGBA) :
    (l.leftEdge ≤ p ∧ p ≤ l.rightEdge → l.ColorAt p base = blend l.color base) ∧
    (¬(l.leftEdge ≤ p ∧ p ≤ l.rightEdge) → l.ColorAt p base = base) := by
  constructor <;> intro h <;> simp [Line.ColorAt, h]

/-- C6 witness: a line on [2, 5] at an inside and an outside position. -/
theorem line_containment_witness :
    Line.ColorAt ⟨2, 5, ⟨9, 9, 9, 9⟩, 10⟩ 3 ⟨1, 2, 3, 4⟩ = blend ⟨9, 9, 9, 9⟩ ⟨1, 2, 3, 4⟩ ∧
    Line.ColorAt ⟨2, 5, ⟨9, 9, 9, 9⟩, 10⟩ 7 ⟨1, 2, 3, 4⟩ = ⟨1, 2, 3, 4⟩ :=
  ⟨(line_containment ⟨2, 5, ⟨9, 9, 9, 9⟩, 10⟩ 3 ⟨1, 2, 3, 4⟩).1 (by norm_num),
   (line_containment ⟨2, 5, ⟨9, 9, 9, 9⟩, 10⟩ 7 ⟨1, 2, 3, 4⟩).2 (by norm_num)⟩

/-- C8: an invisible `Player` passes the base color through unchanged at every
position. -/
theorem player_invisible_passthrough (player : Player) (p : ℚ) (base : RGBA)
    (h : player.visible = false) :
    player.ColorAt p base = base := by
  simp [Player.ColorAt, h]

/-- C8 witness. -/
theorem player_invisible_passthrough_witness :
    Player.ColorAt ⟨⟨0, 50, ⟨255, 0, 0, 200⟩, 10⟩, false⟩ 25 ⟨1, 2, 3, 4⟩ = ⟨1, 2, 3, 4⟩ :=
  player_invisible_passthrough ⟨⟨0, 50, ⟨255, 0, 0, 200⟩, 10⟩, false⟩ 25 ⟨1, 2, 3, 4⟩ rfl

/-- C10: a player fresh out of `NewPlayer` (either side, any width) has
`visible = false`, and hence `ColorAt` returns the base color unchanged at
every position. -/
theorem newPlayer_initially_invisible (isLeft : Bool) (width : ℤ) (p : ℚ) (base : RGBA) :
    (NewPlayer isLeft width).visible = false ∧
    (NewPlayer isLeft width).ColorAt p base = base := by
  cases isLeft <;> simp [NewPlayer, Player.ColorAt]

/-- One `Ball.Animate` step preserves `position ∈ [0, maxPosition]` provided
the step travels at most `maxPosition`; the speed and `maxPosition` are
always preserved. -/
theorem Ball.animate_inv (ball : Ball) (dt : ℚ)
    (hp0 : 0 ≤ ball.position) (hpm : ball.position ≤ ball.maxPosition)
    (hdt : 0 ≤ dt) (hstep : |ball.velocity| * dt ≤ ball.maxPosition) :
    0 ≤ (ball.Animate dt).position ∧ (ball.Animate dt).position ≤ ball.maxPosition ∧
    |(ball.Animate dt).velocity| = |ball.velocity| ∧
    (ball.Animate dt).maxPosition = ball.maxPosition := by
  have hv : |ball.velocity * dt| ≤ ball.maxPosition := by
    rw [abs_mul, abs_of_nonneg hdt]
    exact hstep
  have h1 : -ball.maxPosition ≤ ball.velocity * dt := (abs_le.mp hv).1
  have h2 : ball.velocity * dt ≤ ball.maxPosition := (abs_le.mp hv).2
  simp only [Ball.Animate]
  split_ifs with hgt hlt
  · exact ⟨by simp only; linarith, by simp only; linarith, abs_neg _, rfl⟩
  · exact ⟨by simp only; linarith, by simp only; linarith, abs_neg _, rfl⟩
  · exact ⟨by simp only; linarith, by simp only; linarith, rfl, rfl⟩

/-- Lemma: `Ball.Animate` negates the velocity exactly when the tentative position
`position + velocity * dt` leaves `[0, maxPosition]`, and keeps it otherwise. -/
theorem Ball.animate_velocity_eq (ball : Ball) (dt : ℚ) :
    (ball.Animate dt).velocity =
      if ball.maxPosition < ball.position + ball.velocity * dt
          ∨ ball.position + ball.velocity * dt < 0
      then -ball.velocity else ball.velocity := by
  by_cases h1 : ball.maxPosition < ball.position + ball.velocity * dt <;>
    by_cases h2 : ball.position + ball.velocity * dt < 0 <;>
    simp [Ball.Animate, h1, h2]

/-- Iterating `Ball.Animate` over nonnegative steps that each travel at most
`maxPosition` keeps the position in `[0, maxPosition]` and preserves the
speed and `maxPosition`. -/
theorem Ball.animateSeq_inv (dts : List ℚ) (ball : Ball)
    (hp0 : 0 ≤ ball.position) (hpm : ball.position ≤ ball.maxPosition)
    (hdts : ∀ dt ∈ dts, 0 ≤ dt ∧ |ball.velocity| * dt ≤ ball.maxPosition) :
    0 ≤ (ball.AnimateSeq dts).position ∧
    (ball.AnimateSeq dts).position ≤ ball.maxPosition ∧
    |(ball.AnimateSeq dts).velocity| = |ball.velocity| ∧
    (ball.AnimateSeq dts).maxPosition = ball.maxPosition := by
  induction dts generalizing ball with
  | nil => exact ⟨hp0, hpm, rfl, rfl⟩
  | cons d rest ih =>
    obtain ⟨hd0, hdstep⟩ := hdts d (List.mem_cons_self d rest)
    obtain ⟨h1, h2, h3, h4⟩ := Ball.animate_inv ball d hp0 hpm hd0 hdstep
    have hrest : ∀ dt ∈ rest,
        0 ≤ dt ∧ |(ball.Animate d).velocity| * dt ≤ (ball.Animate d).maxPosition := by
      intro dt hmem
      rw [h3, h4]
      exact hdts dt (List.mem_cons_of_mem d hmem)
    have hseq : ball.AnimateSeq (d :: rest) = (ball.Animate d).AnimateSeq rest := rfl
    obtain ⟨g1, g2, g3, g4⟩ := ih (ball.Animate d) h1 (h4 ▸ h2) hrest
    rw [hseq]
    exact ⟨g1, by rw [← h4]; exact g2, g3.trans h3, g4.trans h4⟩

/-- C1 counterexample: from the valid state position 0, velocity 3,
maxPosition 9, a single positive step dt = 10 leaves the ball at
position −12, outside `[0, maxPosition]` (the code reflects only once). -/
theorem ball_animate_escapes_bounds :
    (Ball.Animate ⟨0, 3, 9, 100⟩ 10).position = -12 ∧
    ¬(0 ≤ (Ball.Animate ⟨0, 3, 9, 100⟩ 10).position) := by
  norm_num [Ball.Animate]

/-- C1 (amended): starting from any state with position in
`[0, maxPosition]`, for every sequence of positive dt values each travelling
at most `maxPosition` (`|velocity| * dt ≤ maxPosition`), the position stays
in `[0, maxPosition]` after every `Animate` call (every prefix of steps is
itself such a sequence, so the bound holds after each call), the speed is
preserved, and any further step negates the velocity exactly when the
tentative position `position + velocity*dt` crosses a boundary. -/
theorem ball_boundary_invariant_bounded_dt (ball : Ball) (dts : List ℚ)
    (hp0 : 0 ≤ ball.position) (hpm : ball.position ≤ ball.maxPosition)
    (hdts : ∀ dt ∈ dts, 0 < dt ∧ |ball.velocity| * dt ≤ ball.maxPosition) :
    (0 ≤ (ball.AnimateSeq dts).position ∧
      (ball.AnimateSeq dts).position ≤ ball.maxPosition) ∧
    |(ball.AnimateSeq dts).velocity| = |ball.velocity| ∧
    (∀ dt : ℚ,
      ((ball.AnimateSeq dts).Animate dt).velocity =
        if ball.maxPosition < (ball.AnimateSeq dts).position
              + (ball.AnimateSeq dts).velocity * dt
            ∨ (ball.AnimateSeq dts).position + (ball.AnimateSeq dts).velocity * dt < 0
        then -(ball.AnimateSeq dts).velocity
        else (ball.AnimateSeq dts).velocity) := by
  have hdts' : ∀ dt ∈ dts, 0 ≤ dt ∧ |ball.velocity| * dt ≤ ball.maxPosition :=
    fun dt hmem => ⟨le_of_lt (hdts dt hmem).1, (hdts dt hmem).2⟩
  obtain ⟨g1, g2, g3, g4⟩ := Ball.animateSeq_inv dts ball hp0 hpm hdts'
  refine ⟨⟨g1, g2⟩, g3, fun dt => ?_⟩
  rw [Ball.animate_velocity_eq, g4]

/-- C1 witness for the amended statement. -/
theorem ball_boundary_invariant_bounded_dt_witness :
    0 ≤ (Ball.AnimateSeq ⟨0, 3, 9, 100⟩ [1, 1]).position ∧
    (Ball.AnimateSeq ⟨0, 3, 9, 100⟩ [1, 1]).position ≤ (9 : ℚ) :=
  (ball_boundary_invariant_bounded_dt ⟨0, 3, 9, 100⟩ [1, 1] (by norm_num) (by norm_num)
    (by intro dt hmem; fin_cases hmem <;> norm_num)).1

/-- C5 counterexample: landing exactly on the boundary (overshoot Δ = 0,
which the claim's `0 ≤ Δ` admits) does not negate the velocity: from
position 5, velocity 5, maxPosition 10, dt = 1 the tentative position is
`10 = maxPosition + 0`, yet the velocity stays 5 instead of −5. -/
theorem ball_reflect_zero_delta_no_flip :
    (⟨5, 5, 10, 100⟩ : Ball).position + (⟨5, 5, 10, 100⟩ : Ball).velocity * 1 =
      (⟨5, 5, 10, 100⟩ : Ball).maxPosition + 0 ∧
    ¬((Ball.Animate ⟨5, 5, 10, 100⟩ 1).velocity = -(⟨5, 5, 10, 100⟩ : Ball).velocity) := by
  norm_num [Ball.Animate]

/-- C5 (amended): for a strictly positive overshoot `0 < Δ ≤ maxPosition`,
`Animate` lands at the exact mirror position `maxPosition − Δ` with negated
velocity, and symmetrically an undershoot `−Δ < 0` lands at `Δ` with negated
velocity; at Δ = 0 no reflection fires and the velocity is unchanged. -/
theorem ball_mirror_reflection (ball : Ball) (dt Δ : ℚ)
    (h0 : 0 < Δ) (h1 : Δ ≤ ball.maxPosition) :
    (ball.position + ball.velocity * dt = ball.maxPosition + Δ →
      (ball.Animate dt).position = ball.maxPosition - Δ ∧
      (ball.Animate dt).velocity = -ball.velocity) ∧
    (ball.position + ball.velocity * dt = -Δ →
      (ball.Animate dt).position = Δ ∧
      (ball.Animate dt).velocity = -ball.velocity) := by
  constructor
  · intro hp
    have hgt : ball.position + ball.velocity * dt > ball.maxPosition := by linarith
    simp only [Ball.Animate, if_pos hgt]
    exact ⟨by linarith, trivial⟩
  · intro hp
    have hngt : ¬(ball.position + ball.velocity * dt > ball.maxPosition) := by
      push_neg
      linarith
    have hlt : ball.position + ball.velocity * dt < 0 := by linarith
    simp only [Ball.Animate, if_neg hngt, if_pos hlt]
    exact ⟨by linarith, trivial⟩

/-- C5 witness for the amended statement: overshoot by Δ = 2 over
maxPosition 10 lands at 8 with velocity −12. -/
theorem ball_mirror_reflection_witness :
    (Ball.Animate ⟨0, 12, 10, 100⟩ 1).position = (10 : ℚ) - 2 ∧
    (Ball.Animate ⟨0, 12, 10, 100⟩ 1).velocity = -(12 : ℚ) :=
  (ball_mirror_reflection ⟨0, 12, 10, 100⟩ 1 2 (by norm_num) (by norm_num)).1 (by norm_num)

/-- C7: `Ball.ColorAt` returns the base unchanged at distance ≥ 1; within
distance 1 it blends a white dot whose alpha byte is the truncation of
`(1 − distance) * 255` — equal to 255 at distance 0 and monotonically
non-increasing in the distance. -/
theorem ball_dot_falloff (ball : Ball) (p : ℚ) (base : RGBA) :
    (1 ≤ |p - ball.position| → ball.ColorAt p base = base) ∧
    (|p - ball.position| < 1 →
      ball.ColorAt p base = blend ⟨255, 255, 255, dotAlpha |p - ball.position|⟩ base) ∧
    dotAlpha 0 = 255 ∧
    (∀ d d' : ℚ, d ≤ d' → dotAlpha d' ≤ dotAlpha d) := by
  refine ⟨fun h => ?_, fun h => ?_, ?_, fun d d' h => ?_⟩
  · simp [Ball.ColorAt, not_lt.mpr h]
  · simp [Ball.ColorAt, h]
  · norm_num [dotAlpha, goInt]
    decide
  · unfold dotAlpha
    refine Int.toNat_le_toNat (goInt_mono ?_)
    nlinarith

/-- C7 witness: outside the dot; inside the dot; and monotonicity at
concrete distances. -/
theorem ball_dot_falloff_witness :
    Ball.ColorAt ⟨0, 1, 9, 100⟩ 5 ⟨1, 2, 3, 4⟩ = ⟨1, 2, 3, 4⟩ ∧
    Ball.ColorAt ⟨0, 1, 9, 100⟩ (1/2) ⟨1, 2, 3, 4⟩ =
      blend ⟨255, 255, 255, dotAlpha |(1/2 : ℚ) - 0|⟩ ⟨1, 2, 3, 4⟩ ∧
    dotAlpha 0 = 255 ∧ dotAlpha (3/4 : ℚ) ≤ dotAlpha (1/4 : ℚ) :=
  ⟨(ball_dot_falloff ⟨0, 1, 9, 100⟩ 5 ⟨1, 2, 3, 4⟩).1 (by norm_num),
   (ball_dot_falloff ⟨0, 1, 9, 100⟩ (1/2) ⟨1, 2, 3, 4⟩).2.1
     (by rw [abs_lt]; constructor <;> norm_num),
   (ball_dot_falloff ⟨0, 1, 9, 100⟩ 5 ⟨1, 2, 3, 4⟩).2.2.1,
   (ball_dot_falloff ⟨0, 1, 9, 100⟩ 5 ⟨1, 2, 3, 4⟩).2.2.2 (1/4) (3/4) (by norm_num)⟩

/-- C4 (code bug): the state reached from construction (scale 2) by the
single call `Animate(10)` has `offsets[0] = 1.7` (one wrap of `2.7`), and
`ColorAt` at position 1 (mid-field, `fieldPercentage = 0.5`) computes the
channel-0 table index `int(1.2 * 256) = 307`, outside the 256-entry
`sineLookup` table: the Go code panics on `sineLookup[307]`. -/
theorem sinusoid_lookup_index_out_of_bounds :
    ((NewSinusoid 2 5).Animate 10).offset0 = 17/10 ∧
    (Sinusoid.ColorAtIndices ((NewSinusoid 2 5).Animate 10) 1).1 = 307 ∧
    ¬((Sinusoid.ColorAtIndices ((NewSinusoid 2 5).Animate 10) 1).1 < (sineLookupSize : ℤ)) := by
  have h0 : ((NewSinusoid 2 5).Animate 10).offset0 = 17/10 := by
    norm_num [NewSinusoid, Sinusoid.Animate]
  refine ⟨h0, ?_, ?_⟩ <;>
    norm_num [Sinusoid.ColorAtIndices, Sinusoid.lookupIndex, goInt, h0,
      NewSinusoid, Sinusoid.Animate, sineLookupSize, Int.floor_eq_iff]
